import Mathlib

/-!
Shallow embedding of the spectura screenshot-caching service (Go) and proofs
about its cache, image-cropping and HTTP-handler logic.

Conventions of the embedding:
* Go `time.Time` values are modelled as `Nat` (a monotone clock reading);
  the zero value corresponds to `0` (`IsZero ⇔ = 0`) and `t.After(u) ⇔ t > u`.
* Go durations and unix-second values are modelled as `Int`
  (`time.Since(t) = now − t` may be negative).
* Go byte slices are `Option (List Nat)`: `none` is the nil slice, and
  `bytes.Compare` treats nil like the empty slice.
* Go machine integers (`int`) are modelled as `Int`; Go's `/` truncates
  toward zero, which is `Int.tdiv`.
* Go maps are association lists with insert-replacing-first semantics.
-/

namespace Spectura

/-- Provenance from main.go: first-requester attribution; `when = 0` is the
zero time (`when.IsZero()`). -/
structure Provenance where
  addr : String
  referer : String
  userAgent : String
  whenAt : Nat
deriving DecidableEq, Repr

/-- The zero value of `Provenance`. -/
def Provenance.zero : Provenance := ⟨"", "", "", 0⟩

/-- CacheEntry from cache.go: the cache's value type.  `Image = none` is the
nil byte slice; `URL = none` is a nil pointer, `URL = some s` a URL whose
`String()` is `s`. -/
structure CacheEntry where
  Expire : Int
  Image : Option (List Nat)
  Signature : String
  URL : Option String
  EntryCreated : Nat
  ImageCreated : Nat
  LastRefreshAttempt : Nat
  LastFetched : Nat
  Provenance : Provenance
  Score : Int
deriving DecidableEq, Repr

/-- The zero value of `CacheEntry` (what a Go map read returns on a miss). -/
def CacheEntry.zero : CacheEntry :=
  ⟨0, none, "", none, 0, 0, 0, 0, Provenance.zero, 0⟩

/-- `IsEmpty` from cache.go: whether `e` is a zero value CacheEntry. -/
def CacheEntry.IsEmpty (e : CacheEntry) : Bool :=
  e.Image = none && e.Signature = "" && e.URL = none

/-- `IsFailedImage` from cache.go. -/
def CacheEntry.IsFailedImage (e : CacheEntry) : Bool :=
  e.URL ≠ none && e.Image = none

/-- `bytes.Compare` semantics on nil-able byte slices: nil compares equal to
the empty slice.  `bytesEq a b ⇔ bytes.Compare(a, b) == 0`. -/
def bytesEq (a b : Option (List Nat)) : Bool :=
  a.getD [] == b.getD []

/-- The image block of `merge` in cache.go (the `new.Image != nil` branch):
overwrite `Image`/`Score` and stamp `ImageCreated` when the new image is
accepted; the Bool reports whether the `image_updated` webhook fired. -/
def mergeImage (now : Nat) (old new : CacheEntry) : CacheEntry × Bool :=
  match new.Image with
  | none => (old, false)
  | some _ =>
    if new.Score < Int.tdiv old.Score 2 ∨ new.Score < old.Score - 20 then
      -- Ignore new image because of significant information density loss
      (old, false)
    else if ¬ bytesEq new.Image old.Image then
      -- Use new image if it is different
      ({ old with Image := new.Image, ImageCreated := now, Score := new.Score },
       true)
    else
      (old, false)

/-- The metadata chain of `merge` in cache.go: fill `Provenance`, `Signature`
and `EntryCreated` when still zero, and take the later
`LastFetched`/`LastRefreshAttempt`. -/
def mergeMeta (old new : CacheEntry) : CacheEntry :=
  let old :=
    if old.Provenance.whenAt = 0 then { old with Provenance := new.Provenance }
    else old
  let old :=
    if old.Signature = "" then { old with Signature := new.Signature } else old
  let old :=
    if old.EntryCreated = 0 then { old with EntryCreated := new.EntryCreated }
    else old
  let old :=
    if new.LastFetched > old.LastFetched then
      { old with LastFetched := new.LastFetched }
    else old
  let old :=
    if new.LastRefreshAttempt > old.LastRefreshAttempt then
      { old with LastRefreshAttempt := new.LastRefreshAttempt }
    else old
  old

/-- `merge` from cache.go: combines an old and a new CacheEntry.  Returns the
merged entry together with a flag telling whether the `image_updated` webhook
was emitted.  `now` is the time of the merge. -/
def merge (now : Nat) (old new : CacheEntry) : CacheEntry × Bool :=
  let step1 := mergeImage now old new
  (mergeMeta step1.1 new, step1.2)

/-- The entry map owned by the cache goroutine, modelled as an association
list; Go map insertion replaces the binding in place. -/
abbrev CacheMap := List (String × CacheEntry)

/-- Go map read `entries[k]` (first binding wins). -/
def mapLookup : CacheMap → String → Option CacheEntry
  | [], _ => none
  | (k', v) :: rest, k => if k' = k then some v else mapLookup rest k

/-- Go map write `entries[k] = v`: replace the first binding for `k`, or
append a new one. -/
def mapInsert : CacheMap → String → CacheEntry → CacheMap
  | [], k, v => [(k, v)]
  | (k', v') :: rest, k, v =>
    if k' = k then (k, v) :: rest else (k', v') :: mapInsert rest k v

/-- `entry.URL.String()`: the Go code dereferences the URL pointer to obtain
the map key; the nil case (a Go panic) is mapped to the empty key. -/
def keyStr : Option String → String
  | some s => s
  | none => ""

/-- The `readQuery` case of `Cache.serve` in cache.go: look the URL up,
substitute the fallback image in the reply when the entry is a failed image,
and re-store the (unchanged) entry when it exists.  Returns
(reply, updated map). -/
def readStep (fallback : List Nat) (m : CacheMap) (url : String) :
    CacheEntry × CacheMap :=
  match mapLookup m url with
  | some entry =>
    let replyEntry :=
      if entry.IsFailedImage then { entry with Image := some fallback }
      else entry
    (replyEntry, mapInsert m url entry)
  | none =>
    let entry := CacheEntry.zero
    let replyEntry :=
      if entry.IsFailedImage then { entry with Image := some fallback }
      else entry
    (replyEntry, m)

/-- The `writeQuery` case of `Cache.serve` in cache.go.  On an existing key
the incoming entry is merged with the stored one; on a fresh key
`EntryCreated` (and `ImageCreated`, when an image is present) are stamped and
the `image_created` webhook fires.  Returns
(updated map, image_updated emitted, image_created emitted). -/
def writeStep (now : Nat) (m : CacheMap) (entry : CacheEntry) :
    CacheMap × Bool × Bool :=
  let key := keyStr entry.URL
  match mapLookup m key with
  | some oldEntry =>
    let res := merge now oldEntry entry
    (mapInsert m key res.1, res.2, false)
  | none =>
    let entry :=
      { entry with
        EntryCreated := now
        ImageCreated := if entry.Image ≠ none then now else entry.ImageCreated }
    (mapInsert m key entry, false, true)

/-- `Cache.WriteMetadata` from cache.go: clear the image, then write. -/
def writeMetadataStep (now : Nat) (m : CacheMap) (entry : CacheEntry) :
    CacheMap × Bool × Bool :=
  writeStep now m { entry with Image := none }

/-- `Cache.ReadAll` reply: a snapshot of all stored entries. -/
def readAllStep (m : CacheMap) : List CacheEntry := m.map Prod.snd

-- Basic lemmas about the association-list map.

theorem mapLookup_insert (m : CacheMap) (k : String) (v : CacheEntry) :
    mapLookup (mapInsert m k v) k = some v := by
  induction m with
  | nil => simp [mapInsert, mapLookup]
  | cons hd tl ih =>
    obtain ⟨k', v'⟩ := hd
    by_cases h : k' = k <;> simp [mapInsert, mapLookup, h, ih]

theorem mapInsert_self (m : CacheMap) (k : String) (v : CacheEntry)
    (h : mapLookup m k = some v) : mapInsert m k v = m := by
  induction m with
  | nil => simp [mapLookup] at h
  | cons hd tl ih =>
    obtain ⟨k', v'⟩ := hd
    by_cases hk : k' = k
    · subst hk
      simp [mapLookup] at h
      simp [mapInsert, h]
    · simp [mapLookup, hk] at h
      simp [mapInsert, hk, ih h]

theorem mapLookup_mem (m : CacheMap) (k : String) (v : CacheEntry)
    (h : mapLookup m k = some v) : v ∈ readAllStep m := by
  induction m with
  | nil => simp [mapLookup] at h
  | cons hd tl ih =>
    obtain ⟨k', v'⟩ := hd
    by_cases hk : k' = k
    · subst hk
      simp [mapLookup] at h
      simp [readAllStep, h]
    · simp [mapLookup, hk] at h
      simp [readAllStep] at ih ⊢
      exact Or.inr (ih h)

-- merge preserves URL and Expire.

theorem mergeMeta_URL_Expire (old new : CacheEntry) :
    (mergeMeta old new).URL = old.URL ∧
    (mergeMeta old new).Expire = old.Expire := by
  unfold mergeMeta
  constructor <;> (dsimp only ; split <;> split <;> split <;> split <;> split <;> rfl)

theorem mergeImage_URL_Expire (now : Nat) (old new : CacheEntry) :
    (mergeImage now old new).1.URL = old.URL ∧
    (mergeImage now old new).1.Expire = old.Expire := by
  unfold mergeImage
  constructor <;> (split <;> (try split) <;> (try split) <;> rfl)

theorem merge_URL_Expire (now : Nat) (old new : CacheEntry) :
    (merge now old new).1.URL = old.URL ∧
    (merge now old new).1.Expire = old.Expire := by
  unfold merge
  dsimp only
  refine ⟨?_, ?_⟩
  · rw [(mergeMeta_URL_Expire _ _).1, (mergeImage_URL_Expire now old new).1]
  · rw [(mergeMeta_URL_Expire _ _).2, (mergeImage_URL_Expire now old new).2]

/-- C1: a `Write` whose key already exists never overwrites the stored
`URL` or `Expire`: the merged entry stored afterwards carries the
pre-existing values, whatever the incoming entry holds. -/
theorem write_preserves_URL_Expire (now : Nat) (m : CacheMap)
    (entry old : CacheEntry)
    (h : mapLookup m (keyStr entry.URL) = some old) :
    ∃ stored,
      mapLookup (writeStep now m entry).1 (keyStr entry.URL) = some stored ∧
      stored.URL = old.URL ∧ stored.Expire = old.Expire := by
  refine ⟨(merge now old entry).1, ?_, ?_, ?_⟩
  · simp only [writeStep, h]
    exact mapLookup_insert ..
  · exact (merge_URL_Expire now old entry).1
  · exact (merge_URL_Expire now old entry).2

theorem mergeMeta_Image_Score_ImageCreated (old new : CacheEntry) :
    (mergeMeta old new).Image = old.Image ∧
    (mergeMeta old new).Score = old.Score ∧
    (mergeMeta old new).ImageCreated = old.ImageCreated := by
  unfold mergeMeta
  refine ⟨?_, ?_, ?_⟩ <;>
    (dsimp only ; split <;> split <;> split <;> split <;> split <;> rfl)

/-- C3: when the incoming entry carries an image, `merge` replaces the
image, score and `ImageCreated` (and fires `image_updated`) exactly when the
new score is at least half (truncated division) and within 20 of the old one
and the image bytes differ; otherwise the old image, score and
`ImageCreated` survive and no event fires. -/
theorem merge_image_update_iff (now : Nat) (old new : CacheEntry)
    (h : new.Image ≠ none) :
    ((Int.tdiv old.Score 2 ≤ new.Score ∧ old.Score - 20 ≤ new.Score ∧
        bytesEq new.Image old.Image = false) →
      (merge now old new).1.Image = new.Image ∧
      (merge now old new).1.Score = new.Score ∧
      (merge now old new).1.ImageCreated = now ∧
      (merge now old new).2 = true) ∧
    (¬ (Int.tdiv old.Score 2 ≤ new.Score ∧ old.Score - 20 ≤ new.Score ∧
        bytesEq new.Image old.Image = false) →
      (merge now old new).1.Image = old.Image ∧
      (merge now old new).1.Score = old.Score ∧
      (merge now old new).1.ImageCreated = old.ImageCreated ∧
      (merge now old new).2 = false) := by
  obtain ⟨img, himg⟩ := Option.ne_none_iff_exists'.mp h
  have hmeta := mergeMeta_Image_Score_ImageCreated (mergeImage now old new).1 new
  have hsplit : merge now old new =
      (mergeMeta (mergeImage now old new).1 new, (mergeImage now old new).2) := rfl
  constructor
  · rintro ⟨h1, h2, h3⟩
    have h3' : bytesEq (some img) old.Image = false := by rw [← himg] ; exact h3
    have hi : mergeImage now old new =
        ({ old with Image := new.Image, ImageCreated := now,
                    Score := new.Score }, true) := by
      unfold mergeImage
      rw [himg]
      rw [if_neg (by rw [not_or] ; exact ⟨not_lt.mpr h1, not_lt.mpr h2⟩)]
      rw [if_pos (by simp [h3'])]
    rw [hsplit]
    dsimp only
    exact ⟨by rw [hmeta.1, hi], by rw [hmeta.2.1, hi], by rw [hmeta.2.2, hi],
      by rw [hi]⟩
  · intro hrej
    have hfin : mergeImage now old new = (old, false) →
        (merge now old new).1.Image = old.Image ∧
        (merge now old new).1.Score = old.Score ∧
        (merge now old new).1.ImageCreated = old.ImageCreated ∧
        (merge now old new).2 = false := by
      intro hi
      rw [hsplit]
      dsimp only
      exact ⟨by rw [hmeta.1, hi], by rw [hmeta.2.1, hi], by rw [hmeta.2.2, hi],
        by rw [hi]⟩
    by_cases hd : new.Score < Int.tdiv old.Score 2 ∨ new.Score < old.Score - 20
    · refine hfin ?_
      unfold mergeImage
      rw [himg, if_pos hd]
    · rw [not_or, not_lt, not_lt] at hd
      have hbytes : bytesEq (some img) old.Image = true := by
        by_cases hb : bytesEq new.Image old.Image = false
        · exact absurd ⟨hd.1, hd.2, hb⟩ hrej
        · rw [← himg]
          exact Bool.not_eq_false _ |>.mp hb
      refine hfin ?_
      unfold mergeImage
      rw [himg]
      rw [if_neg (by rw [not_or] ; exact ⟨not_lt.mpr hd.1, not_lt.mpr hd.2⟩)]
      rw [if_neg (by simp [hbytes])]

/-- Witness for C3 at a concrete pair of entries (acceptance side). -/
theorem merge_image_update_iff_witness :
    let old : CacheEntry :=
      { CacheEntry.zero with URL := some "u", Image := some [0, 0], Score := 30 }
    let incoming : CacheEntry :=
      { CacheEntry.zero with URL := some "u", Image := some [1, 2], Score := 25 }
    (merge 7 old incoming).1.Image = incoming.Image ∧
    (merge 7 old incoming).1.Score = incoming.Score ∧
    (merge 7 old incoming).1.ImageCreated = 7 ∧
    (merge 7 old incoming).2 = true := by
  intro old incoming
  exact (merge_image_update_iff 7 old incoming (by decide)).1 (by decide)

/-- C4: reading a failed-image entry (URL present, image nil) substitutes the
process-global fallback PNG in the reply while the stored entry is untouched:
the map is unchanged, and a subsequent `ReadAll` still exhibits the entry
with a nil image. -/
theorem read_failed_image_fallback (fallback : List Nat) (m : CacheMap)
    (url : String) (e : CacheEntry) (h : mapLookup m url = some e)
    (hurl : e.URL ≠ none) (himg : e.Image = none) :
    (readStep fallback m url).1 = { e with Image := some fallback } ∧
    (readStep fallback m url).2 = m ∧
    mapLookup (readStep fallback m url).2 url = some e ∧
    e ∈ readAllStep (readStep fallback m url).2 ∧ e.Image = none := by
  have hfail : e.IsFailedImage = true := by
    simp [CacheEntry.IsFailedImage, himg, hurl]
  have hmap : (readStep fallback m url).2 = m := by
    simp only [readStep, h]
    exact mapInsert_self m url e h
  refine ⟨?_, hmap, ?_, ?_, himg⟩
  · simp only [readStep, h, hfail]
    rfl
  · rw [hmap] ; exact h
  · rw [hmap] ; exact mapLookup_mem m url e h

/-- Witness for C4 at a concrete store holding one failed entry. -/
theorem read_failed_image_fallback_witness :
    let e : CacheEntry := { CacheEntry.zero with URL := some "u", Signature := "sig" }
    let m : CacheMap := [("u", e)]
    (readStep [9, 9] m "u").1 = { e with Image := some [9, 9] } ∧
    (readStep [9, 9] m "u").2 = m ∧
    mapLookup (readStep [9, 9] m "u").2 "u" = some e ∧
    e ∈ readAllStep (readStep [9, 9] m "u").2 ∧ e.Image = none := by
  intro e m
  exact read_failed_image_fallback [9, 9] m "u" e (by decide) (by decide) (by decide)

/-! ## Image model and the cropping pipeline (image.go) -/

/-- `color.NRGBA`: one pixel, four 8-bit channels. -/
structure NRGBAColor where
  r : Nat
  g : Nat
  b : Nat
  a : Nat
deriving DecidableEq, Repr

/-- The zero `color.NRGBA` returned by `NRGBAAt` outside the bounds. -/
def NRGBAColor.zero : NRGBAColor := ⟨0, 0, 0, 0⟩

/-- `image.Rectangle` with `Min = (minX, minY)` and `Max = (maxX, maxY)`. -/
structure Rectangle where
  minX : Int
  minY : Int
  maxX : Int
  maxY : Int
deriving DecidableEq, Repr

/-- `image.Rect(x0, y0, x1, y1)`: the constructor swaps a flipped pair. -/
def mkRect (x0 y0 x1 y1 : Int) : Rectangle :=
  ⟨min x0 x1, min y0 y1, max x0 x1, max y0 y1⟩

def Rectangle.Dx (r : Rectangle) : Int := r.maxX - r.minX

def Rectangle.Dy (r : Rectangle) : Int := r.maxY - r.minY

/-- `Rectangle.Intersect`: the largest rectangle inside both, or the zero
rectangle when they do not overlap. -/
def Rectangle.Intersect (r s : Rectangle) : Rectangle :=
  let t : Rectangle :=
    ⟨max r.minX s.minX, max r.minY s.minY, min r.maxX s.maxX, min r.maxY s.maxY⟩
  if t.minX < t.maxX ∧ t.minY < t.maxY then t else ⟨0, 0, 0, 0⟩

/-- `*image.NRGBA`: a bounds rectangle plus a total pixel function (the
function is only consulted inside the bounds, see `NRGBAAt`). -/
structure NRGBAImage where
  rect : Rectangle
  pixAt : Int → Int → NRGBAColor

/-- `NRGBA.NRGBAAt`: zero color outside the bounds. -/
def NRGBAImage.NRGBAAt (m : NRGBAImage) (x y : Int) : NRGBAColor :=
  if m.rect.minX ≤ x ∧ x < m.rect.maxX ∧ m.rect.minY ≤ y ∧ y < m.rect.maxY then
    m.pixAt x y
  else NRGBAColor.zero

/-- `NRGBA.SubImage`: the image restricted to `r ∩ bounds` (the zero-value
image when they do not overlap, exactly as in Go). -/
def NRGBAImage.SubImage (m : NRGBAImage) (r : Rectangle) : NRGBAImage :=
  ⟨r.Intersect m.rect, m.pixAt⟩

/-- `OGImageWidth` from image.go. -/
def OGImageWidth : Int := 600

/-- `OGImageHeight` from image.go. -/
def OGImageHeight : Int := 314

/-- `fallbackImageURL` from image.go. -/
def fallbackImageURL : String :=
  "https://www.jobindex.dk/img/jobindex20/spectura_adshare.png"

/-- The inner loop of `countSingleColoredRows`: does every pixel of row `y`
inside the bounds equal `bg`? -/
def rowSingleColored (m : NRGBAImage) (y : Int) (bg : NRGBAColor) : Bool :=
  (List.range m.rect.Dx.toNat).all fun i =>
    m.NRGBAAt (m.rect.minX + i) y == bg

/-- The outer loop of `countSingleColoredRows`: length of the run of
`bg`-colored rows starting at `y`; the fuel is the number of rows left until
`maxY`. -/
def countRowsFrom (m : NRGBAImage) (bg : NRGBAColor) : Int → Nat → Nat
  | _, 0 => 0
  | y, fuel + 1 =>
    if rowSingleColored m y bg then countRowsFrom m bg (y + 1) fuel + 1 else 0

/-- `countSingleColoredRows` from image.go: starting at row
`bounds.Min.Y + offset`, count consecutive rows whose pixels all equal the
pixel at `(Min.X, Min.Y + offset)`; also return that reference color. -/
def countSingleColoredRows (m : NRGBAImage) (offset : Int) : Nat × NRGBAColor :=
  let b := m.rect
  let minY := b.minY + offset
  let bgColor := m.NRGBAAt b.minX minY
  (countRowsFrom m bgColor minY (b.maxY - minY).toNat, bgColor)

/-- Leftmost `x` of row `y` (within band `b`) whose pixel differs from `bg`,
if any: the left scan of `leftRightMargins`. -/
def leftmostNonBg (m : NRGBAImage) (b : Rectangle) (y : Int) (bg : NRGBAColor) :
    Option Int :=
  (List.range b.Dx.toNat).findSome? fun i =>
    let x := b.minX + i
    if m.NRGBAAt x y == bg then none else some x

/-- Rightmost `x` of row `y` (within band `b`) whose pixel differs from `bg`,
if any: the right scan of `leftRightMargins`. -/
def rightmostNonBg (m : NRGBAImage) (b : Rectangle) (y : Int) (bg : NRGBAColor) :
    Option Int :=
  (List.range b.Dx.toNat).findSome? fun i =>
    let x := b.maxX - 1 - i
    if m.NRGBAAt x y == bg then none else some x

/-- `leftRightMargins` from image.go: over the band `bounds ∩ r`, track the
minimal leftmost and maximal rightmost non-`bg` column; Go's early break once
both extremes are reached cannot change the result and is dropped. -/
def leftRightMargins (m : NRGBAImage) (r : Rectangle) (bgColor : NRGBAColor) :
    Int × Int :=
  let b := m.rect.Intersect r
  let acc :=
    (List.range b.Dy.toNat).foldl
      (fun (acc : Int × Int) j =>
        let y := b.minY + j
        let acc :=
          match leftmostNonBg m b y bgColor with
          | some x => if x < acc.1 then (x, acc.2) else acc
          | none => acc
        match rightmostNonBg m b y bgColor with
        | some x => if x > acc.2 then (acc.1, x) else acc
        | none => acc)
      (b.maxX - 1, b.minX)
  (acc.1, b.maxX - acc.2 - 1)

/-- `imageConfEntry` from image.go (`delay` in ms, `voffset` in pixels). -/
structure ImageConfEntry where
  Delay : Int
  Voffset : Int
deriving DecidableEq, Repr

/-- The zero `imageConfEntry` value. -/
def ImageConfEntry.zero : ImageConfEntry := ⟨0, 0⟩

/-- `globalImageConf`, modelled as an association list. -/
abbrev ImageConf := List (String × ImageConfEntry)

/-- Lookup in `globalImageConf`. -/
def confLookup : ImageConf → String → Option ImageConfEntry
  | [], _ => none
  | (k', v) :: rest, k => if k' = k then some v else confLookup rest k

/-- `strings.Count(hostname, ".")`. -/
def countDots (s : String) : Nat := s.toList.count '.'

/-- `strings.SplitN(hostname, ".", 2)[1]`: everything after the first dot
(the empty string when there is none; the source only calls this when a dot
is present). -/
def afterFirstDot (s : String) : String :=
  String.intercalate "." (s.splitOn ".").tail

/-- The two still-zero-field updates performed on a config hit inside
`getConfFromHostname`. -/
def fillEntry (entry hostnameEntry : ImageConfEntry) : ImageConfEntry :=
  let entry :=
    if entry.Delay = 0 then { entry with Delay := hostnameEntry.Delay }
    else entry
  if entry.Voffset = 0 then { entry with Voffset := hostnameEntry.Voffset }
  else entry

/-- The loop body of `getConfFromHostname`, with `sepCount` as fuel exactly
as in the source (`for sepCount := strings.Count(...); sepCount > 0;
sepCount--`). -/
def getConfLoop (conf : ImageConf) : String → ImageConfEntry → Nat →
    ImageConfEntry
  | _, entry, 0 => entry
  | hostname, entry, sepCount + 1 =>
    match confLookup conf hostname with
    | some hostnameEntry =>
      let entry := fillEntry entry hostnameEntry
      if entry.Delay ≠ 0 ∧ entry.Voffset ≠ 0 then entry
      else getConfLoop conf (afterFirstDot hostname) entry sepCount
    | none => getConfLoop conf (afterFirstDot hostname) entry sepCount

/-- `getConfFromHostname` from image.go: suffix walk over the host-config
map, filling only still-zero fields and stopping early when both are set. -/
def getConfFromHostname (conf : ImageConf) (hostname : String) : ImageConfEntry :=
  getConfLoop conf hostname ImageConfEntry.zero (countDots hostname)

/-- The voffset computation of `cropImage` in image.go, i.e. everything
before the final `SubImage` call: top-margin scan, secondary-band scan and
the left/right-margin adjustment.  (The source's `cropRect.Add(...)` result
is discarded there, faithfully omitted here.) -/
def cropVoffset (voffset0 : Int) (m : NRGBAImage) : Int :=
  let maxTopMargin : Int := 25
  let voffset := voffset0
  let scan1 := countSingleColoredRows m voffset
  let topMargin : Int := scan1.1
  let color := scan1.2
  let origTopMargin := topMargin
  let origVoffset := voffset
  let voffset :=
    if topMargin > maxTopMargin then voffset + (topMargin - maxTopMargin)
    else voffset
  let topMargin := if origTopMargin > maxTopMargin then maxTopMargin else topMargin
  let scan2 := countSingleColoredRows m (origVoffset + origTopMargin)
  let diffColoredMargin : Int := scan2.1
  let voffset :=
    if diffColoredMargin > maxTopMargin then
      voffset + (diffColoredMargin - maxTopMargin)
    else voffset
  let topMargin :=
    if diffColoredMargin > maxTopMargin then maxTopMargin else topMargin
  let cropRect := mkRect 0 voffset OGImageWidth (voffset + maxTopMargin * 2)
  let margins := leftRightMargins m cropRect color
  let leftMargin := margins.1
  let rightMargin := margins.2
  let maxMargin :=
    if rightMargin > leftMargin ∨ rightMargin = 0 then leftMargin
    else rightMargin
  let maxMargin :=
    if maxMargin > 0 ∧ maxMargin < maxTopMargin then
      maxMargin + Int.tdiv (maxTopMargin - maxMargin) 2
    else maxMargin
  if maxMargin < topMargin then voffset + (topMargin - maxMargin) else voffset

/-- `cropImage` from image.go: compute the final voffset and take the
600×314 sub-image window starting there. -/
def cropImage (voffset0 : Int) (m : NRGBAImage) : NRGBAImage :=
  let voffset := cropVoffset voffset0 m
  m.SubImage (mkRect 0 voffset OGImageWidth (voffset + OGImageHeight))

/-- The capture error taxonomy of image.go: the three sentinel errors plus
the wrapped transport/decode/encode failures (`errors.Is` only identifies
the sentinel in the first three). -/
inductive CaptureError where
  | croppingError
  | decapInternalError
  | decapRequestError
  | connectFailure
  | decodeFailure
  | encodeFailure
deriving DecidableEq, Repr

/-- A PNG successfully decoded by Go's `png.Decode` always has origin
`(0, 0)`; width/height are its dimensions. -/
structure DecodedPNG where
  width : Nat
  height : Nat
  pixAt : Int → Int → NRGBAColor

def DecodedPNG.toImage (p : DecodedPNG) : NRGBAImage :=
  ⟨⟨0, 0, (p.width : Int), (p.height : Int)⟩, p.pixAt⟩

/-- Outcome of the HTTP exchange with Decap, the external renderer:
no connection, or a response with a status code, a content-type flag and the
decoded PNG body (`none` when the body fails to decode). -/
inductive DecapOutcome where
  | noConnection
  | response (status : Nat) (contentTypePNG : Bool) (decoded : Option DecodedPNG)

/-- `imageFromDecap` from image.go, as a function of the HTTP outcome:
transport failure, non-200/wrong content type (HTTP 500 mapped to the
internal-error sentinel), decode failure, or the decoded image. -/
def imageFromDecap : DecapOutcome → Except CaptureError NRGBAImage
  | .noConnection => .error .connectFailure
  | .response status contentTypePNG decoded =>
    if status ≠ 200 ∨ contentTypePNG = false then
      if status = 500 then .error .decapInternalError
      else .error .decapRequestError
    else
      match decoded with
      | none => .error .decodeFailure
      | some p => .ok p.toImage

/-- Go's `png.Encode` size precondition: it only fails (for a byte-buffer
writer) on a non-positive width or height. -/
def pngEncodeOk (m : NRGBAImage) : Bool := 0 < m.rect.Dx && 0 < m.rect.Dy

/-- `fetchAndCropImage` from image.go, as a function of the Decap outcome:
fetch, optionally crop (failing when the cropped height falls below 314),
then PNG-encode.  Returns the image whose encoding is stored in
`entry.Image`.  `background` only selects the Decap timing profile, which is
part of the abstracted outcome. -/
def fetchAndCropImage (conf : ImageConf) (hostname : String)
    (outcome : DecapOutcome) (background nocrop : Bool) :
    Except CaptureError NRGBAImage :=
  match imageFromDecap outcome with
  | .error e => .error e
  | .ok im =>
    let m := if nocrop then im
      else cropImage (getConfFromHostname conf hostname).Voffset im
    if ¬ nocrop ∧ m.rect.Dy < OGImageHeight then .error .croppingError
    else if pngEncodeOk m then .ok m
    else .error .encodeFailure

theorem intersect_crop_window (v H : Int) :
    Rectangle.Intersect ⟨0, v, 600, v + 314⟩ ⟨0, 0, 600, H⟩ =
    (if max v 0 < min (v + 314) H then
      (⟨0, max v 0, 600, min (v + 314) H⟩ : Rectangle)
    else ⟨0, 0, 0, 0⟩) := by
  unfold Rectangle.Intersect
  dsimp only
  rw [show max (0 : Int) 0 = 0 by norm_num, show min (600 : Int) 600 = 600 by norm_num]
  by_cases hc : max v 0 < min (v + 314) H
  · rw [if_pos ⟨by norm_num, hc⟩, if_pos hc]
  · rw [if_neg (fun hand => hc hand.2), if_neg hc]

/-- C2: on a 600-wide decoded screenshot, the cropping path of
`fetchAndCropImage` fails with the crop-failure error exactly when fewer
than 314 of the rows `[v, v + 314)` (at the final voffset `v`) lie inside
the image; any other outcome is success with an exactly 600×314 image. -/
theorem fetchAndCropImage_crop_spec (conf : ImageConf) (hostname : String)
    (p : DecodedPNG) (background : Bool) (hw : p.width = 600) :
    let v := cropVoffset (getConfFromHostname conf hostname).Voffset p.toImage
    let res := fetchAndCropImage conf hostname
      (.response 200 true (some p)) background false
    (res = .error .croppingError ↔
      min (v + 314) (p.height : Int) - max v 0 < 314) ∧
    (∀ out, res = .ok out → out.rect.Dx = 600 ∧ out.rect.Dy = 314) ∧
    (∀ e, res = .error e → e = .croppingError) := by
  intro v res
  have hfetch : imageFromDecap (.response 200 true (some p)) = .ok p.toImage := by
    simp [imageFromDecap]
  have hcroprect :
      (cropImage (getConfFromHostname conf hostname).Voffset p.toImage).rect =
      ((mkRect 0 v OGImageWidth (v + OGImageHeight)).Intersect
        p.toImage.rect) := rfl
  have hmk : mkRect 0 v OGImageWidth (v + OGImageHeight) =
      ⟨0, v, 600, v + 314⟩ := by
    unfold mkRect OGImageWidth OGImageHeight
    congr 1 <;> omega
  have himrect : p.toImage.rect = ⟨0, 0, 600, (p.height : Int)⟩ := by
    unfold DecodedPNG.toImage
    dsimp only
    rw [hw]
    norm_num
  have hrect :
      (cropImage (getConfFromHostname conf hostname).Voffset p.toImage).rect =
      (if max v 0 < min (v + 314) (p.height : Int) then
        (⟨0, max v 0, 600, min (v + 314) (p.height : Int)⟩ : Rectangle)
      else ⟨0, 0, 0, 0⟩) := by
    rw [hcroprect, hmk, himrect, intersect_crop_window]
  have hres : res = fetchAndCropImage conf hostname
      (.response 200 true (some p)) background false := rfl
  have hunf : res =
      (if ¬ false ∧ (cropImage (getConfFromHostname conf hostname).Voffset
            p.toImage).rect.Dy < OGImageHeight then
        .error .croppingError
      else if pngEncodeOk (cropImage (getConfFromHostname conf hostname).Voffset
            p.toImage) then
        .ok (cropImage (getConfFromHostname conf hostname).Voffset p.toImage)
      else .error .encodeFailure) := by
    rw [hres]
    unfold fetchAndCropImage
    rw [hfetch]
    rfl
  by_cases hne : max v 0 < min (v + 314) (p.height : Int)
  · -- the crop window meets the image
    have hdy : (cropImage (getConfFromHostname conf hostname).Voffset
        p.toImage).rect.Dy = min (v + 314) (p.height : Int) - max v 0 := by
      rw [hrect, if_pos hne] ; rfl
    have hdx : (cropImage (getConfFromHostname conf hostname).Voffset
        p.toImage).rect.Dx = 600 := by
      rw [hrect, if_pos hne] ; rfl
    by_cases hlt : min (v + 314) (p.height : Int) - max v 0 < 314
    · have : res = .error .croppingError := by
        rw [hunf, if_pos]
        constructor
        · simp
        · rw [hdy] ; exact hlt
      refine ⟨⟨fun _ => hlt, fun _ => this⟩, ?_, ?_⟩
      · intro out hout ; rw [this] at hout ; cases hout
      · intro e he ; rw [this] at he ; injection he with he' ; rw [← he']
    · have hok : res = .ok (cropImage
          (getConfFromHostname conf hostname).Voffset p.toImage) := by
        rw [hunf, if_neg, if_pos]
        · unfold pngEncodeOk
          rw [hdx, hdy]
          simp only [Bool.and_eq_true, decide_eq_true_eq]
          omega
        · rw [hdy]
          unfold OGImageHeight
          simp only [not_and, not_lt]
          intro
          omega
      refine ⟨⟨fun habs => ?_, fun habs => absurd habs hlt⟩, ?_, ?_⟩
      · rw [hok] at habs ; cases habs
      · intro out hout
        rw [hok] at hout
        injection hout with hout'
        rw [← hout', hdx, hdy]
        constructor
        · rfl
        · omega
      · intro e he ; rw [hok] at he ; cases he
  · -- empty intersection: zero rectangle, hence crop failure
    have hdy : (cropImage (getConfFromHostname conf hostname).Voffset
        p.toImage).rect.Dy = 0 := by
      rw [hrect, if_neg hne] ; rfl
    have this : res = .error .croppingError := by
      rw [hunf, if_pos]
      constructor
      · simp
      · rw [hdy] ; unfold OGImageHeight ; omega
    refine ⟨⟨fun _ => by omega, fun _ => this⟩, ?_, ?_⟩
    · intro out hout ; rw [this] at hout ; cases hout
    · intro e he ; rw [this] at he ; injection he with he' ; rw [← he']

/-- Witness for C2 on a concrete 600×1 all-white screenshot (the crop
window cannot fit, so the capture fails with the crop failure). -/
theorem fetchAndCropImage_crop_spec_witness :
    let p : DecodedPNG := ⟨600, 1, fun _ _ => ⟨255, 255, 255, 255⟩⟩
    let v := cropVoffset (getConfFromHostname [] "h").Voffset p.toImage
    let res := fetchAndCropImage [] "h" (.response 200 true (some p)) false false
    (600 : Nat) = 600 ∧
    ((res = .error .croppingError ↔
      min (v + 314) ((1 : Nat) : Int) - max v 0 < 314) ∧
    (∀ out, res = .ok out → out.rect.Dx = 600 ∧ out.rect.Dy = 314) ∧
    (∀ e, res = .error e → e = .croppingError)) := by
  intro p v res
  exact ⟨rfl, fetchAndCropImage_crop_spec [] "h" p false rfl⟩

/-- Witness for C1 at a concrete store and write. -/
theorem write_preserves_URL_Expire_witness :
    let old : CacheEntry :=
      { CacheEntry.zero with URL := some "https://a.example/x", Expire := 99 }
    let incoming : CacheEntry :=
      { CacheEntry.zero with URL := some "https://a.example/x", Expire := 5,
                             Image := some [1, 2, 3], Score := 7 }
    let m : CacheMap := [("https://a.example/x", old)]
    ∃ stored,
      mapLookup (writeStep 42 m incoming).1 (keyStr incoming.URL) = some stored ∧
      stored.URL = old.URL ∧ stored.Expire = old.Expire := by
  intro old incoming m
  exact write_preserves_URL_Expire 42 m incoming old (by decide)

/-! ## The host-config suffix walk (C9) -/

/-- The chain of hostname suffixes the walk visits, driven by the same fuel
as the source's loop: the full name, then one leading label stripped per
step; the final single label is not in the chain. -/
def suffixChainAux (hostname : String) : Nat → List String
  | 0 => []
  | n + 1 => hostname :: suffixChainAux (afterFirstDot hostname) n

/-- The suffix chain of a hostname: `countDots hostname` entries. -/
def suffixChain (hostname : String) : List String :=
  suffixChainAux hostname (countDots hostname)

/-- `getConfLoop` instrumented with the list of keys looked up in the
config map. -/
def getConfLoopTrace (conf : ImageConf) : String → ImageConfEntry → Nat →
    ImageConfEntry × List String
  | _, entry, 0 => (entry, [])
  | hostname, entry, sepCount + 1 =>
    match confLookup conf hostname with
    | some hostnameEntry =>
      let entry := fillEntry entry hostnameEntry
      if entry.Delay ≠ 0 ∧ entry.Voffset ≠ 0 then (entry, [hostname])
      else
        let r := getConfLoopTrace conf (afterFirstDot hostname) entry sepCount
        (r.1, hostname :: r.2)
    | none =>
      let r := getConfLoopTrace conf (afterFirstDot hostname) entry sepCount
      (r.1, hostname :: r.2)

/-- Modelled from the spec: fill any still-zero field of the accumulated
entry from a config hit ("on each hit, fill any still-zero fields"). -/
def specFill (entry hit : ImageConfEntry) : ImageConfEntry :=
  { Delay := if entry.Delay = 0 then hit.Delay else entry.Delay
    Voffset := if entry.Voffset = 0 then hit.Voffset else entry.Voffset }

/-- Modelled from the spec: the suffix walk as §3 of the spec words it —
visit the suffixes in order, fill still-zero fields on each hit, and return
as soon as both fields are non-zero, otherwise after the walk ends. -/
def specHostWalk (conf : ImageConf) : List String → ImageConfEntry →
    ImageConfEntry
  | [], entry => entry
  | h :: rest, entry =>
    let entry :=
      match confLookup conf h with
      | some hit => specFill entry hit
      | none => entry
    if entry.Delay ≠ 0 ∧ entry.Voffset ≠ 0 then entry
    else specHostWalk conf rest entry

theorem specFill_eq_fillEntry (entry hit : ImageConfEntry) :
    specFill entry hit = fillEntry entry hit := by
  unfold specFill fillEntry
  by_cases hd : entry.Delay = 0 <;> by_cases hv : entry.Voffset = 0 <;>
    simp [hd, hv]

theorem getConfLoop_eq_specWalk (conf : ImageConf) (n : Nat) :
    ∀ hostname entry, entry.Delay = 0 ∨ entry.Voffset = 0 →
    getConfLoop conf hostname entry n =
      specHostWalk conf (suffixChainAux hostname n) entry := by
  induction n with
  | zero => intro hostname entry _ ; rfl
  | succ n ih =>
    intro hostname entry hinv
    unfold getConfLoop suffixChainAux specHostWalk
    cases hconf : confLookup conf hostname with
    | none =>
      dsimp only
      rw [if_neg (by rcases hinv with h | h <;> (rw [not_and_or] ; tauto))]
      exact ih (afterFirstDot hostname) entry hinv
    | some hit =>
      dsimp only
      rw [specFill_eq_fillEntry]
      by_cases hboth :
          (fillEntry entry hit).Delay ≠ 0 ∧ (fillEntry entry hit).Voffset ≠ 0
      · rw [if_pos hboth, if_pos hboth]
      · rw [if_neg hboth, if_neg hboth]
        refine ih (afterFirstDot hostname) (fillEntry entry hit) ?_
        rcases Decidable.em ((fillEntry entry hit).Delay = 0) with h | h
        · exact Or.inl h
        · rcases Decidable.em ((fillEntry entry hit).Voffset = 0) with h' | h'
          · exact Or.inr h'
          · exact absurd ⟨h, h'⟩ hboth

theorem getConfLoopTrace_fst (conf : ImageConf) (n : Nat) :
    ∀ hostname entry,
    (getConfLoopTrace conf hostname entry n).1 = getConfLoop conf hostname entry n := by
  induction n with
  | zero => intro hostname entry ; rfl
  | succ n ih =>
    intro hostname entry
    unfold getConfLoopTrace getConfLoop
    cases hconf : confLookup conf hostname with
    | none => exact ih (afterFirstDot hostname) entry
    | some hit =>
      dsimp only
      by_cases hboth :
          (fillEntry entry hit).Delay ≠ 0 ∧ (fillEntry entry hit).Voffset ≠ 0
      · rw [if_pos hboth, if_pos hboth]
      · rw [if_neg hboth, if_neg hboth]
        exact ih (afterFirstDot hostname) _

theorem getConfLoopTrace_prefix (conf : ImageConf) (n : Nat) :
    ∀ hostname entry,
    (getConfLoopTrace conf hostname entry n).2.IsPrefix (suffixChainAux hostname n) := by
  induction n with
  | zero => intro hostname entry ; exact List.nil_prefix
  | succ n ih =>
    intro hostname entry
    unfold getConfLoopTrace suffixChainAux
    cases hconf : confLookup conf hostname with
    | none =>
      dsimp only
      exact List.cons_prefix_cons.mpr ⟨rfl, ih (afterFirstDot hostname) entry⟩
    | some hit =>
      dsimp only
      by_cases hboth :
          (fillEntry entry hit).Delay ≠ 0 ∧ (fillEntry entry hit).Voffset ≠ 0
      · rw [if_pos hboth]
        exact List.cons_prefix_cons.mpr ⟨rfl, List.nil_prefix⟩
      · rw [if_neg hboth]
        exact List.cons_prefix_cons.mpr ⟨rfl, ih (afterFirstDot hostname) _⟩

theorem getConfLoopTrace_length (conf : ImageConf) (n : Nat) :
    ∀ hostname entry,
    (getConfLoopTrace conf hostname entry n).2.length = n ∨
    ((getConfLoopTrace conf hostname entry n).1.Delay ≠ 0 ∧
     (getConfLoopTrace conf hostname entry n).1.Voffset ≠ 0) := by
  induction n with
  | zero => intro hostname entry ; exact Or.inl rfl
  | succ n ih =>
    intro hostname entry
    unfold getConfLoopTrace
    cases hconf : confLookup conf hostname with
    | none =>
      dsimp only
      rcases ih (afterFirstDot hostname) entry with h | h
      · exact Or.inl (by simp [h])
      · exact Or.inr h
    | some hit =>
      dsimp only
      by_cases hboth :
          (fillEntry entry hit).Delay ≠ 0 ∧ (fillEntry entry hit).Voffset ≠ 0
      · rw [if_pos hboth]
        exact Or.inr hboth
      · rw [if_neg hboth]
        rcases ih (afterFirstDot hostname) (fillEntry entry hit) with h | h
        · exact Or.inl (by simp [h])
        · exact Or.inr h

theorem suffixChainAux_length (hostname : String) (n : Nat) :
    (suffixChainAux hostname n).length = n := by
  induction n generalizing hostname with
  | zero => rfl
  | succ n ih => simp [suffixChainAux, ih]

/-- C9: the suffix walk of `getConfFromHostname` equals the spec's walk over
the suffix chain (fill still-zero fields on each hit, stop once both are
non-zero); the chain holds exactly `countDots hostname` candidate keys (so
the final single label is never looked up); the keys actually looked up are
a prefix of the chain, all of it unless the walk returned early with both
fields non-zero; and a hostname without dots yields the zero config. -/
theorem getConfFromHostname_spec (conf : ImageConf) (hostname : String) :
    getConfFromHostname conf hostname =
      specHostWalk conf (suffixChain hostname) ImageConfEntry.zero ∧
    (suffixChain hostname).length = countDots hostname ∧
    (getConfLoopTrace conf hostname ImageConfEntry.zero (countDots hostname)).1 =
      getConfFromHostname conf hostname ∧
    (getConfLoopTrace conf hostname ImageConfEntry.zero (countDots hostname)).2.IsPrefix
      (suffixChain hostname) ∧
    ((getConfLoopTrace conf hostname ImageConfEntry.zero (countDots hostname)).2.length =
        countDots hostname ∨
      (getConfFromHostname conf hostname).Delay ≠ 0 ∧
      (getConfFromHostname conf hostname).Voffset ≠ 0) ∧
    (countDots hostname = 0 → getConfFromHostname conf hostname = ImageConfEntry.zero) := by
  refine ⟨?_, ?_, ?_, ?_, ?_, ?_⟩
  · exact getConfLoop_eq_specWalk conf (countDots hostname) hostname
      ImageConfEntry.zero (Or.inl rfl)
  · exact suffixChainAux_length hostname (countDots hostname)
  · exact getConfLoopTrace_fst conf (countDots hostname) hostname ImageConfEntry.zero
  · exact getConfLoopTrace_prefix conf (countDots hostname) hostname ImageConfEntry.zero
  · rcases getConfLoopTrace_length conf (countDots hostname) hostname
      ImageConfEntry.zero with h | h
    · exact Or.inl h
    · refine Or.inr ?_
      unfold getConfFromHostname
      rw [← getConfLoopTrace_fst conf (countDots hostname) hostname ImageConfEntry.zero]
      exact h
  · intro h0
    unfold getConfFromHostname
    rw [h0]
    rfl

/-- Witness for C9 at a concrete config and hostname (and, through the last
conjunct, at a dot-free hostname). -/
theorem getConfFromHostname_spec_witness :
    getConfFromHostname [("b.c", ⟨5, 7⟩)] "a.b.c" =
      specHostWalk [("b.c", ⟨5, 7⟩)] (suffixChain "a.b.c") ImageConfEntry.zero ∧
    getConfFromHostname [("b.c", ⟨5, 7⟩)] "localhost" = ImageConfEntry.zero := by
  constructor
  · exact (getConfFromHostname_spec [("b.c", ⟨5, 7⟩)] "a.b.c").1
  · exact (getConfFromHostname_spec [("b.c", ⟨5, 7⟩)] "localhost").2.2.2.2.2 (by decide)

/-! ## HMAC-SHA1 (crypto/sha1 + crypto/hmac, used by checkSignature) -/

/-- Reduce modulo 2^32 (Go's uint32 arithmetic). -/
def w32 (n : Nat) : Nat := n % 4294967296

/-- Left-rotate a 32-bit word by `s` (0 < s < 32). -/
def rotl32 (x s : Nat) : Nat := w32 ((x <<< s) ||| (x >>> (32 - s)))

/-- Big-endian bytes of a 32-bit word. -/
def be32 (n : Nat) : List Nat :=
  [n >>> 24 % 256, n >>> 16 % 256, n >>> 8 % 256, n % 256]

/-- Big-endian bytes of a 64-bit word. -/
def be64 (n : Nat) : List Nat :=
  (List.range 8).map fun i => n >>> (8 * (7 - i)) % 256

/-- SHA-1 message padding: 0x80, zeros to 56 mod 64, then the bit length. -/
def sha1pad (msg : List Nat) : List Nat :=
  let len := msg.length
  let k := (64 + 56 - ((len + 1) % 64)) % 64
  msg ++ 128 :: List.replicate k 0 ++ be64 (8 * len)

/-- Group bytes into big-endian 32-bit words. -/
def toWords : List Nat → List Nat
  | b0 :: b1 :: b2 :: b3 :: rest =>
    ((((b0 <<< 8) ||| b1) <<< 8 ||| b2) <<< 8 ||| b3) :: toWords rest
  | _ => []

/-- Extend the 16 schedule words to 80 (appending `fuel` more words). -/
def sha1ExtendFrom (ws : List Nat) : Nat → List Nat
  | 0 => ws
  | fuel + 1 =>
    let n := ws.length
    let w := rotl32
      ((ws.getD (n - 3) 0) ^^^ (ws.getD (n - 8) 0) ^^^
        (ws.getD (n - 14) 0) ^^^ (ws.getD (n - 16) 0)) 1
    sha1ExtendFrom (ws ++ [w]) fuel

/-- The 80-word message schedule of one 64-byte block. -/
def sha1Schedule (block : List Nat) : List Nat :=
  sha1ExtendFrom (toWords block) 64

/-- The five-word SHA-1 state. -/
structure Sha1State where
  a : Nat
  b : Nat
  c : Nat
  d : Nat
  e : Nat
deriving DecidableEq, Repr

/-- SHA-1 initial state. -/
def sha1Init : Sha1State :=
  ⟨1732584193, 4023233417, 2562383102, 271733878, 3285377520⟩

/-- Round function selector. -/
def sha1F (t b c d : Nat) : Nat :=
  if t < 20 then (b &&& c) ||| ((b ^^^ 4294967295) &&& d)
  else if t < 40 then b ^^^ c ^^^ d
  else if t < 60 then (b &&& c) ||| (b &&& d) ||| (c &&& d)
  else b ^^^ c ^^^ d

/-- Round constants. -/
def sha1K (t : Nat) : Nat :=
  if t < 20 then 1518500249
  else if t < 40 then 1859775393
  else if t < 60 then 2400959708
  else 3395469782

/-- One SHA-1 round. -/
def sha1Round (ws : List Nat) (st : Sha1State) (t : Nat) : Sha1State :=
  let temp := w32 (rotl32 st.a 5 + sha1F t st.b st.c st.d + st.e + sha1K t +
    ws.getD t 0)
  ⟨temp, st.a, rotl32 st.b 30, st.c, st.d⟩

/-- Compress one 64-byte block into the running state. -/
def sha1Compress (st : Sha1State) (block : List Nat) : Sha1State :=
  let ws := sha1Schedule block
  let r := (List.range 80).foldl (sha1Round ws) st
  ⟨w32 (st.a + r.a), w32 (st.b + r.b), w32 (st.c + r.c), w32 (st.d + r.d),
   w32 (st.e + r.e)⟩

/-- Split a byte list into 64-byte chunks. -/
def chunks64 (l : List Nat) : List (List Nat) :=
  if h : l = [] then [] else l.take 64 :: chunks64 (l.drop 64)
termination_by l.length
decreasing_by
  simp only [List.length_drop]
  have : 0 < l.length := List.length_pos.mpr h
  omega

/-- SHA-1 of a byte list (20-byte digest). -/
def sha1 (msg : List Nat) : List Nat :=
  let fin := (chunks64 (sha1pad msg)).foldl sha1Compress sha1Init
  be32 fin.a ++ be32 fin.b ++ be32 fin.c ++ be32 fin.d ++ be32 fin.e

/-- HMAC-SHA1 with a 64-byte block size (crypto/hmac). -/
def hmacSha1 (key msg : List Nat) : List Nat :=
  let key := if 64 < key.length then sha1 key else key
  let key := key ++ List.replicate (64 - key.length) 0
  let ipadded := key.map fun b => b ^^^ 54
  let opadded := key.map fun b => b ^^^ 92
  sha1 (opadded ++ sha1 (ipadded ++ msg))

/-- UTF-8 bytes of a string (Go's `[]byte(s)`). -/
def strBytes (s : String) : List Nat := s.toUTF8.toList.map fun b => b.toNat

/-- One lowercase hex digit. -/
def hexDigit (n : Nat) : Char :=
  if n < 10 then Char.ofNat (48 + n) else Char.ofNat (87 + n)

/-- `hex.EncodeToString` (lowercase). -/
def hexEncode (bs : List Nat) : String :=
  String.mk (bs.flatMap fun b => [hexDigit (b / 16), hexDigit (b % 16)])

/-! ## The screenshot HTTP handler (the current main file) -/

/-- The process configuration relevant to the handler (environment-derived
globals of the main file). -/
structure Config where
  useSignatures : Bool
  signingKey : String
  signingSecret : String
  signingUniqueName : String
  adminToken : String
  ignoreBackgroundRequests : Bool
  bgRateLimitTime : Int
  imageConf : ImageConf

/-- `checkSignature` from the main file: hex HMAC-SHA1 of
`uniqueName + ":" + url + expire + secret` under the signing key, compared
with the supplied signature. -/
def checkSignature (cfg : Config) (url signature expire : String) : Bool :=
  let sum := hmacSha1 (strBytes cfg.signingKey)
    (strBytes (cfg.signingUniqueName ++ ":" ++ url ++ expire ++ cfg.signingSecret))
  let signatureShouldBe := hexEncode sum
  signature == signatureShouldBe

/-- A screenshot request: the relevant query parameters plus the request
attributes consumed by the handler. -/
structure Request where
  url : String
  s : String
  expireRaw : String
  bg : String
  nocrop : String
  token : String
  referer : String
  remoteAddr : String
  userAgent : String
deriving DecidableEq, Repr

/-- `newProvenance` from the main file. -/
def newProvenance (req : Request) (now : Nat) : Provenance :=
  ⟨req.remoteAddr, req.referer, req.userAgent, now⟩

/-- Decimal digits of a numeral (none on empty input or a non-digit). -/
def digitsVal : List Char → Option Nat
  | [] => none
  | cs =>
    cs.foldl
      (fun acc c =>
        acc.bind fun n => if c.isDigit then some (10 * n + (c.toNat - 48)) else none)
      (some 0)

/-- `strconv.ParseInt(s, 10, 64)`: optional sign, decimal digits, int64
range check. -/
def parseInt64 (str : String) : Option Int :=
  match str.toList with
  | '+' :: rest =>
    (digitsVal rest).bind fun n =>
      if n ≤ 9223372036854775807 then some (n : Int) else none
  | '-' :: rest =>
    (digitsVal rest).bind fun n =>
      if n ≤ 9223372036854775808 then some (-(n : Int)) else none
  | cs =>
    (digitsVal cs).bind fun n =>
      if n ≤ 9223372036854775807 then some (n : Int) else none

/-- `strings.Contains` (for a non-empty pattern). -/
def strContains (s pat : String) : Bool := (s.splitOn pat).length != 1

/-- `infoPath` from the main file. -/
def infoPath : String := "/api/spectura/v0/info"

/-- `URL.Hostname()` for the modelled (opaque string) URL: strip scheme,
userinfo, port, path, query.  A simplified model of the net/url accessor;
no claim depends on its corner cases. -/
def urlHostname (u : String) : String :=
  let rest :=
    match u.splitOn "://" with
    | _ :: r :: _ => r
    | _ => u
  let authority := ((rest.splitOn "/").headD "").splitOn "?" |>.headD ""
  let hostport := (authority.splitOn "@").getLastD ""
  (hostport.splitOn ":").headD ""

/-- The PNG serialization stored in `entry.Image`: dimensions followed by
the pixel grid in row-major RGBA order (deterministic and
dimension-faithful; no claim inspects the byte layout itself). -/
def pngEncodeBytes (m : NRGBAImage) : List Nat :=
  m.rect.Dx.toNat :: m.rect.Dy.toNat ::
    ((List.range m.rect.Dy.toNat).flatMap fun j =>
      (List.range m.rect.Dx.toNat).flatMap fun i =>
        let c := m.NRGBAAt (m.rect.minX + i) (m.rect.minY + j)
        [c.r, c.g, c.b, c.a])

/-- The handler's reply. -/
inductive Response where
  | badRequest (msg : String)
  | redirect (location : String)
  | tooManyRequests
  | internalError
  | okImage (png : List Nat)
  | okText (msg : String)
deriving DecidableEq, Repr

/-- The observable effect of one handler invocation: the reply, the cache
map after all its writes, and the entries passed to spawned
`runRefreshTask` goroutines, in order. -/
structure HandlerOutcome where
  response : Response
  cache : CacheMap
  spawned : List CacheEntry
deriving DecidableEq, Repr

/-- The confirmation message of the bg path. -/
def bgSuccessMsg : String :=
  "Success, refresh is now in progress. This can take up to 30 seconds.\n"

/-- `screenshotHandler` from the current main file, as a function of the
configuration, the current time, the abstracted Decap exchange, the fallback
image, the cache content and the request.  URL parsing is modelled as the
identity (it does not fail on the inputs the claims quantify over, and
`targetURL.String()` is the raw url). -/
def screenshotHandler (cfg : Config) (now : Nat) (outcome : DecapOutcome)
    (fallback : List Nat) (m : CacheMap) (req : Request) : HandlerOutcome :=
  if req.url = "" then
    ⟨.badRequest "Query param url must be present", m, []⟩
  else if cfg.useSignatures ∧ req.s = "" then
    ⟨.badRequest "Query param s must be present", m, []⟩
  else
    match (if req.expireRaw ≠ "" then parseInt64 req.expireRaw else some 0) with
    | none => ⟨.badRequest "Query param expire must be a number", m, []⟩
    | some expire =>
      let targetURL := req.url
      if cfg.useSignatures ∧ checkSignature cfg targetURL req.s req.expireRaw = false then
        ⟨.badRequest "Signature check failed", m, []⟩
      else if expire = 0 ∨ (now : Int) > expire then
        -- Redirect to fallback image
        ⟨.redirect fallbackImageURL, m, []⟩
      else if req.nocrop ≠ "" ∧ cfg.useSignatures = false then
        match fetchAndCropImage cfg.imageConf (urlHostname targetURL) outcome
            false true with
        | .error _ => ⟨.internalError, m, []⟩
        | .ok img => ⟨.okImage (pngEncodeBytes img), m, []⟩
      else
        let read := readStep fallback m targetURL
        let entry := read.1
        let m1 := read.2
        if req.bg ≠ "" then
          if cfg.ignoreBackgroundRequests then ⟨.okText "Ignored", m1, []⟩
          else if entry.IsEmpty then
            let entry := { entry with
              Expire := expire
              Signature := req.s
              URL := some targetURL }
            ⟨.okText bgSuccessMsg, (writeMetadataStep now m1 entry).1, [entry]⟩
          else if ¬ (req.token ≠ "" ∧ req.token = cfg.adminToken) ∧
              (now : Int) - (entry.LastRefreshAttempt : Int) < cfg.bgRateLimitTime then
            ⟨.tooManyRequests, m1, []⟩
          else
            ⟨.okText bgSuccessMsg, (writeMetadataStep now m1 entry).1, [entry]⟩
        else if entry.IsEmpty then
          let entry : CacheEntry :=
            { CacheEntry.zero with
              Expire := expire, LastFetched := now,
              Provenance := newProvenance req now, Signature := req.s,
              URL := some targetURL }
          match fetchAndCropImage cfg.imageConf (urlHostname targetURL) outcome
              false false with
          | .ok img =>
            let entry := { entry with Image := some (pngEncodeBytes img) }
            ⟨.okImage (pngEncodeBytes img), (writeStep now m1 entry).1, [entry]⟩
          | .error e =>
            if e = .croppingError ∨ e = .decapInternalError then
              let m2 := (writeMetadataStep now m1 entry).1
              let read2 := readStep fallback m2 targetURL
              ⟨.okImage (read2.1.Image.getD []), read2.2, [read2.1]⟩
            else ⟨.internalError, m1, []⟩
        else if strContains req.referer infoPath = false then
          let entry :=
            if entry.Provenance.whenAt = 0 then
              { entry with Provenance := newProvenance req now }
            else entry
          let entry := { entry with LastFetched := now }
          ⟨.okImage (entry.Image.getD []), (writeMetadataStep now m1 entry).1, []⟩
        else
          ⟨.okImage (entry.Image.getD []), m1, []⟩

/-! ## Scheduled tick and refresh tasks (C10, C6) -/

/-- The scheduled-tick case of `Cache.serve` in cache.go: every entry is
checked independently against both clocks — entries older than the TTL are
deleted, and entries whose last refresh attempt is older than the
auto-refresh age get a refresh task spawned (even if just deleted).
Returns (map after eviction, entries handed to spawned refresh tasks). -/
def tickStep (now : Nat) (cacheTTL autoRefreshAfter : Int) (m : CacheMap) :
    CacheMap × List CacheEntry :=
  (m.filter fun kv => !((now : Int) - (kv.2.EntryCreated : Int) > cacheTTL : Bool),
   (m.filter fun kv =>
      ((now : Int) - (kv.2.LastRefreshAttempt : Int) > autoRefreshAfter : Bool)).map
     Prod.snd)

/-- The synchronous prefix of `Cache.runRefreshTask` in cache.go: stamp
`LastRefreshAttempt = now` and publish the metadata via `WriteMetadata`
(before queueing behind the refresh scheduler). -/
def runRefreshTaskStamp (now : Nat) (m : CacheMap) (e : CacheEntry) :
    CacheMap × Bool × Bool :=
  writeMetadataStep now m { e with LastRefreshAttempt := now }

theorem mapLookup_pair_mem (m : CacheMap) (k : String) (v : CacheEntry)
    (h : mapLookup m k = some v) : (k, v) ∈ m := by
  induction m with
  | nil => simp [mapLookup] at h
  | cons hd tl ih =>
    obtain ⟨k', v'⟩ := hd
    by_cases hk : k' = k
    · subst hk
      simp [mapLookup] at h
      simp [h]
    · simp [mapLookup, hk] at h
      exact List.mem_cons_of_mem _ (ih h)

theorem mapLookup_eq_none_of_not_mem (m : CacheMap) (k : String)
    (h : k ∉ m.map Prod.fst) : mapLookup m k = none := by
  induction m with
  | nil => rfl
  | cons hd tl ih =>
    obtain ⟨k', v'⟩ := hd
    simp only [List.map_cons, List.mem_cons] at h
    rw [not_or] at h
    simp only [mapLookup]
    rw [if_neg (fun he => h.1 (Eq.symm he))]
    exact ih h.2

theorem mapLookup_filter_none (m : CacheMap) (k : String) (v : CacheEntry)
    (p : String × CacheEntry → Bool)
    (hnodup : (m.map Prod.fst).Nodup)
    (h : mapLookup m k = some v) (hp : p (k, v) = false) :
    mapLookup (m.filter p) k = none := by
  induction m with
  | nil => simp [mapLookup] at h
  | cons hd tl ih =>
    obtain ⟨k', v'⟩ := hd
    simp only [List.map_cons, List.nodup_cons] at hnodup
    by_cases hk : k' = k
    · subst hk
      simp only [mapLookup, if_pos rfl] at h
      injection h with h
      subst h
      rw [List.filter_cons, hp]
      rw [if_neg Bool.false_ne_true]
      apply mapLookup_eq_none_of_not_mem
      intro hmem
      apply hnodup.1
      obtain ⟨pair, hpair, hfst⟩ := List.mem_map.mp hmem
      exact List.mem_map.mpr ⟨pair, List.mem_of_mem_filter hpair, hfst⟩
    · simp only [mapLookup, if_neg hk] at h
      rw [List.filter_cons]
      by_cases hph : p (k', v') = true
      · rw [if_pos hph]
        simp only [mapLookup, if_neg hk]
        exact ih hnodup.2 h
      · rw [if_neg hph]
        exact ih hnodup.2 h

/-- C10: within one scheduled tick the TTL-eviction check and the
auto-refresh check are applied independently to every entry: an entry past
the TTL is deleted, yet when it is also past the auto-refresh age a refresh
task is still spawned for it, and that task's initial `WriteMetadata` stamp
re-creates the just-deleted key in the cache. -/
theorem tick_evict_and_refresh (now : Nat) (cacheTTL autoRefreshAfter : Int)
    (m : CacheMap) (url : String) (e : CacheEntry)
    (hnodup : (m.map Prod.fst).Nodup)
    (hlk : mapLookup m url = some e) (hurl : e.URL = some url)
    (httl : (now : Int) - (e.EntryCreated : Int) > cacheTTL)
    (href : (now : Int) - (e.LastRefreshAttempt : Int) > autoRefreshAfter) :
    mapLookup (tickStep now cacheTTL autoRefreshAfter m).1 url = none ∧
    e ∈ (tickStep now cacheTTL autoRefreshAfter m).2 ∧
    ∀ now2 : Nat, ∃ stored,
      mapLookup (runRefreshTaskStamp now2
        (tickStep now cacheTTL autoRefreshAfter m).1 e).1 url = some stored ∧
      stored.EntryCreated = now2 ∧ stored.Image = none ∧
      stored.LastRefreshAttempt = now2 := by
  have h1 : mapLookup (tickStep now cacheTTL autoRefreshAfter m).1 url = none := by
    apply mapLookup_filter_none m url e _ hnodup hlk
    simp [httl]
  refine ⟨h1, ?_, ?_⟩
  · apply List.mem_map.mpr
    refine ⟨(url, e), List.mem_filter.mpr ⟨mapLookup_pair_mem m url e hlk, ?_⟩, rfl⟩
    simp [href]
  · intro now2
    refine ⟨{ e with
                Image := none
                EntryCreated := now2
                LastRefreshAttempt := now2 }, ?_, rfl, rfl, rfl⟩
    unfold runRefreshTaskStamp writeMetadataStep writeStep
    dsimp only
    rw [hurl]
    simp only [keyStr]
    rw [h1]
    exact mapLookup_insert ..

/-- Witness for C10 at a concrete one-entry cache past both deadlines. -/
theorem tick_evict_and_refresh_witness :
    let e : CacheEntry := { CacheEntry.zero with URL := some "u" }
    let m : CacheMap := [("u", e)]
    mapLookup (tickStep 100 50 50 m).1 "u" = none ∧
    e ∈ (tickStep 100 50 50 m).2 ∧
    ∀ now2 : Nat, ∃ stored,
      mapLookup (runRefreshTaskStamp now2 (tickStep 100 50 50 m).1 e).1 "u" =
        some stored ∧
      stored.EntryCreated = now2 ∧ stored.Image = none ∧
      stored.LastRefreshAttempt = now2 := by
  intro e m
  exact tick_evict_and_refresh 100 50 50 m "u" e (by decide) (by decide) (by decide)
    (by decide) (by decide)

/-- C5 (amended): after url and signature validation, a request whose expire
parameter is 0 or absent, or lies strictly in the past
(`now > Unix(expire)`), is answered with a 302 redirect to the fallback
image URL; the cache is untouched and no refresh is spawned. -/
theorem screenshot_expired_redirect (cfg : Config) (now : Nat)
    (outcome : DecapOutcome) (fallback : List Nat) (m : CacheMap)
    (req : Request) (expire : Int)
    (hurl : req.url ≠ "")
    (hs : ¬ (cfg.useSignatures = true ∧ req.s = ""))
    (hparse : (if req.expireRaw ≠ "" then parseInt64 req.expireRaw else some 0) =
      some expire)
    (hsig : ¬ (cfg.useSignatures = true ∧
      checkSignature cfg req.url req.s req.expireRaw = false))
    (hexp : expire = 0 ∨ (now : Int) > expire) :
    screenshotHandler cfg now outcome fallback m req =
      ⟨.redirect fallbackImageURL, m, []⟩ := by
  unfold screenshotHandler
  rw [if_neg hurl, if_neg hs, hparse]
  dsimp only
  rw [if_neg hsig, if_pos hexp]

/-- Witness for the amended C5 at a concrete request with no expire param. -/
theorem screenshot_expired_redirect_witness :
    let cfg : Config := ⟨false, "", "", "", "", false, 0, []⟩
    let req : Request := ⟨"u", "", "", "", "", "", "", "", ""⟩
    screenshotHandler cfg 5 .noConnection [] [] req =
      ⟨.redirect fallbackImageURL, [], []⟩ := by
  intro cfg req
  exact screenshot_expired_redirect cfg 5 .noConnection [] [] req 0 (by decide)
    (by decide) (by decide) (by decide) (Or.inl rfl)

/-- Counterexample to C5 as stated: at the boundary `now = Unix(expire)` the
handler does not redirect (the code tests strictly-after), and here serves
the miss path instead — a renderer connection failure surfaces as a 500. -/
theorem screenshot_expire_boundary_counterexample :
    let cfg : Config := ⟨false, "", "", "", "", false, 0, []⟩
    let req : Request := ⟨"u", "", "100", "", "", "", "", "", ""⟩
    parseInt64 "100" = some 100 ∧
    (100 : Int) ≥ 100 ∧
    (screenshotHandler cfg 100 .noConnection [] [] req).response =
      .internalError ∧
    (screenshotHandler cfg 100 .noConnection [] [] req).response ≠
      .redirect fallbackImageURL := by
  intro cfg req
  exact ⟨by decide, by decide, by decide, by decide⟩

/-! ## Handler helper lemmas -/

theorem readStep_hit (fallback : List Nat) (m : CacheMap) (url : String)
    (e : CacheEntry) (hlk : mapLookup m url = some e) :
    readStep fallback m url =
      (if e.IsFailedImage then { e with Image := some fallback } else e, m) := by
  unfold readStep
  rw [hlk]
  dsimp only
  rw [mapInsert_self m url e hlk]

theorem readStep_miss (fallback : List Nat) (m : CacheMap) (url : String)
    (hlk : mapLookup m url = none) :
    readStep fallback m url = (CacheEntry.zero, m) := by
  unfold readStep
  rw [hlk]
  rfl

theorem readReply_clear_image (fallback : List Nat) (e0 : CacheEntry) :
    ({ (if e0.IsFailedImage then { e0 with Image := some fallback } else e0) with
        Image := none } : CacheEntry) = { e0 with Image := none } := by
  by_cases h : e0.IsFailedImage <;> simp [h]

theorem readReply_stamp_clear (fallback : List Nat) (e0 : CacheEntry) (now2 : Nat) :
    ({ ({ (if e0.IsFailedImage then { e0 with Image := some fallback } else e0) with
          LastRefreshAttempt := now2 } : CacheEntry) with Image := none } :
      CacheEntry) =
    { e0 with Image := none, LastRefreshAttempt := now2 } := by
  by_cases h : e0.IsFailedImage <;> simp [h]

theorem readReply_LastRefreshAttempt (fallback : List Nat) (e0 : CacheEntry) :
    (if e0.IsFailedImage then { e0 with Image := some fallback } else e0).LastRefreshAttempt =
      e0.LastRefreshAttempt := by
  by_cases h : e0.IsFailedImage <;> simp [h]

theorem readReply_not_empty (fallback : List Nat) (e0 : CacheEntry) (url : String)
    (hurl0 : e0.URL = some url) :
    (if e0.IsFailedImage then { e0 with Image := some fallback } else e0).IsEmpty =
      false := by
  by_cases h : e0.IsFailedImage <;> simp [h, CacheEntry.IsEmpty, hurl0]

theorem merge_metadata_noop (now : Nat) (e : CacheEntry) :
    merge now e { e with Image := none } = (e, false) := by
  unfold merge mergeImage mergeMeta
  dsimp only
  simp

theorem merge_stamp (now2 : Nat) (e : CacheEntry)
    (hle : e.LastRefreshAttempt ≤ now2) :
    merge now2 e { e with Image := none, LastRefreshAttempt := now2 } =
    ({ e with LastRefreshAttempt := now2 }, false) := by
  unfold merge mergeImage mergeMeta
  dsimp only
  rcases Nat.lt_or_ge e.LastRefreshAttempt now2 with h | h
  · simp [h]
  · have heq : now2 = e.LastRefreshAttempt := Nat.le_antisymm h hle
    subst heq
    simp

theorem writeMetadataStep_noop (now : Nat) (m : CacheMap) (url : String)
    (e0 entry : CacheEntry)
    (hclear : ({ entry with Image := none } : CacheEntry) = { e0 with Image := none })
    (hlk : mapLookup m url = some e0) (hurl0 : e0.URL = some url) :
    (writeMetadataStep now m entry).1 = m := by
  unfold writeMetadataStep writeStep
  rw [hclear]
  dsimp only
  rw [show keyStr e0.URL = url from by rw [hurl0] ; rfl]
  rw [hlk]
  dsimp only
  rw [merge_metadata_noop]
  exact mapInsert_self m url e0 hlk

theorem writeMetadataStep_stamp (now2 : Nat) (m : CacheMap) (url : String)
    (e0 entry : CacheEntry)
    (hclear : ({ entry with Image := none } : CacheEntry) =
      { e0 with Image := none, LastRefreshAttempt := now2 })
    (hlk : mapLookup m url = some e0) (hurl0 : e0.URL = some url)
    (hle : e0.LastRefreshAttempt ≤ now2) :
    mapLookup (writeMetadataStep now2 m entry).1 url =
      some { e0 with LastRefreshAttempt := now2 } := by
  unfold writeMetadataStep writeStep
  rw [hclear]
  dsimp only
  rw [show keyStr e0.URL = url from by rw [hurl0] ; rfl]
  rw [hlk]
  dsimp only
  rw [merge_stamp now2 e0 hle]
  exact mapLookup_insert ..

/-- C6 (amended): a bg request for a cached (non-empty) entry whose last
refresh attempt lies within the rate-limit window is rejected with 429,
spawning nothing and leaving the cache unchanged — unless the token
parameter is non-empty and equals the admin token, in which case the
request is accepted, the entry is handed to a spawned refresh task, and
that task's initial stamp sets the stored `LastRefreshAttempt`. -/
theorem bg_rate_limit_429 (cfg : Config) (now : Nat) (outcome : DecapOutcome)
    (fallback : List Nat) (m : CacheMap) (req : Request) (expire : Int)
    (e0 : CacheEntry)
    (hurl : req.url ≠ "")
    (hs : ¬ (cfg.useSignatures = true ∧ req.s = ""))
    (hparse : (if req.expireRaw ≠ "" then parseInt64 req.expireRaw else some 0) =
      some expire)
    (hsig : ¬ (cfg.useSignatures = true ∧
      checkSignature cfg req.url req.s req.expireRaw = false))
    (hexp : ¬ (expire = 0 ∨ (now : Int) > expire))
    (hnocrop : ¬ (req.nocrop ≠ "" ∧ cfg.useSignatures = false))
    (hbg : req.bg ≠ "")
    (hign : cfg.ignoreBackgroundRequests = false)
    (hlk : mapLookup m req.url = some e0)
    (hurl0 : e0.URL = some req.url)
    (hlim : (now : Int) - (e0.LastRefreshAttempt : Int) < cfg.bgRateLimitTime) :
    (¬ (req.token ≠ "" ∧ req.token = cfg.adminToken) →
      screenshotHandler cfg now outcome fallback m req =
        ⟨.tooManyRequests, m, []⟩) ∧
    ((req.token ≠ "" ∧ req.token = cfg.adminToken) →
      (screenshotHandler cfg now outcome fallback m req).response =
        .okText bgSuccessMsg ∧
      (screenshotHandler cfg now outcome fallback m req).cache = m ∧
      ∃ spawnedEntry,
        (screenshotHandler cfg now outcome fallback m req).spawned =
          [spawnedEntry] ∧
        spawnedEntry.LastRefreshAttempt = e0.LastRefreshAttempt ∧
        ∀ now2 : Nat, e0.LastRefreshAttempt ≤ now2 →
          ∃ stored,
            mapLookup (runRefreshTaskStamp now2
                (screenshotHandler cfg now outcome fallback m req).cache
                spawnedEntry).1 req.url = some stored ∧
            stored.LastRefreshAttempt = now2) := by
  have hred : screenshotHandler cfg now outcome fallback m req =
      (if ¬ (req.token ≠ "" ∧ req.token = cfg.adminToken) ∧
          (now : Int) -
            (((if e0.IsFailedImage then { e0 with Image := some fallback }
               else e0) : CacheEntry).LastRefreshAttempt : Int) <
            cfg.bgRateLimitTime then
        ⟨.tooManyRequests, m, []⟩
      else
        ⟨.okText bgSuccessMsg,
          (writeMetadataStep now m
            (if e0.IsFailedImage then { e0 with Image := some fallback }
             else e0)).1,
          [if e0.IsFailedImage then { e0 with Image := some fallback }
           else e0]⟩) := by
    unfold screenshotHandler
    rw [if_neg hurl, if_neg hs, hparse]
    dsimp only
    rw [if_neg hsig, if_neg hexp, if_neg hnocrop]
    rw [readStep_hit fallback m req.url e0 hlk]
    dsimp only
    rw [if_pos hbg]
    rw [if_neg (by simp [hign])]
    rw [if_neg (by simp [readReply_not_empty fallback e0 req.url hurl0])]
  constructor
  · intro hadmin
    rw [hred]
    rw [if_pos ⟨hadmin,
      by rw [readReply_LastRefreshAttempt fallback e0] ; exact hlim⟩]
  · intro hadmin
    rw [hred]
    rw [if_neg (fun hcond => hcond.1 hadmin)]
    dsimp only
    refine ⟨rfl, writeMetadataStep_noop now m req.url e0 _
      (readReply_clear_image fallback e0) hlk hurl0, ?_⟩
    refine ⟨_, rfl, readReply_LastRefreshAttempt fallback e0, ?_⟩
    intro now2 hle2
    rw [writeMetadataStep_noop now m req.url e0 _
      (readReply_clear_image fallback e0) hlk hurl0]
    refine ⟨{ e0 with LastRefreshAttempt := now2 }, ?_, rfl⟩
    unfold runRefreshTaskStamp
    exact writeMetadataStep_stamp now2 m req.url e0 _
      (readReply_stamp_clear fallback e0 now2) hlk hurl0 hle2

/-- Witness for the amended C6 (both the 429 side and the admin side) at a
concrete one-entry cache. -/
theorem bg_rate_limit_429_witness :
    let cfg : Config := ⟨false, "", "", "", "tok", false, 10, []⟩
    let e : CacheEntry := { CacheEntry.zero with
      URL := some "u"
      Image := some [1]
      LastRefreshAttempt := 95 }
    let m : CacheMap := [("u", e)]
    let req : Request := ⟨"u", "", "200", "1", "", "", "", "", ""⟩
    let reqAdmin : Request := ⟨"u", "", "200", "1", "", "tok", "", "", ""⟩
    screenshotHandler cfg 100 .noConnection [] m req =
      ⟨.tooManyRequests, m, []⟩ ∧
    (screenshotHandler cfg 100 .noConnection [] m reqAdmin).response =
      .okText bgSuccessMsg := by
  intro cfg e m req reqAdmin
  constructor
  · exact (bg_rate_limit_429 cfg 100 .noConnection [] m req 200 e (by decide)
      (by decide) (by decide) (by decide) (by decide) (by decide) (by decide)
      (by decide) (by decide) (by decide) (by decide)).1 (by decide)
  · exact ((bg_rate_limit_429 cfg 100 .noConnection [] m reqAdmin 200 e (by decide)
      (by decide) (by decide) (by decide) (by decide) (by decide) (by decide)
      (by decide) (by decide) (by decide) (by decide)).2 (by decide)).1

/-- Counterexample to C6 as stated: when the configured admin token is the
empty string and the request carries no token, the two are equal, yet the
code still rejects with 429 (the bypass additionally requires a non-empty
token). -/
theorem bg_admin_empty_token_counterexample :
    let cfg : Config := ⟨false, "", "", "", "", false, 10, []⟩
    let e : CacheEntry := { CacheEntry.zero with
      URL := some "u"
      Image := some [1]
      LastRefreshAttempt := 95 }
    let m : CacheMap := [("u", e)]
    let req : Request := ⟨"u", "", "200", "1", "", "", "", "", ""⟩
    req.token = cfg.adminToken ∧
    (100 : Int) - (e.LastRefreshAttempt : Int) < cfg.bgRateLimitTime ∧
    screenshotHandler cfg 100 .noConnection [] m req =
      ⟨.tooManyRequests, m, []⟩ := by
  intro cfg e m req
  exact ⟨rfl, by decide, by decide⟩

/-- C7: on a foreground cache miss, a capture failing with the crop-failure
or renderer-internal (HTTP 500) error is persisted as a failed-image entry
via `WriteMetadata` and answered 200 with the fallback image obtained by
re-reading that entry; every other capture error (renderer unreachable,
other bad status or content type, decode or encode failure) is answered 500
with the cache unchanged and no refresh spawned. -/
theorem fg_miss_error_classification (cfg : Config) (now : Nat)
    (outcome : DecapOutcome) (fallback : List Nat) (m : CacheMap)
    (req : Request) (expire : Int) (err : CaptureError)
    (hurl : req.url ≠ "")
    (hs : ¬ (cfg.useSignatures = true ∧ req.s = ""))
    (hparse : (if req.expireRaw ≠ "" then parseInt64 req.expireRaw else some 0) =
      some expire)
    (hsig : ¬ (cfg.useSignatures = true ∧
      checkSignature cfg req.url req.s req.expireRaw = false))
    (hexp : ¬ (expire = 0 ∨ (now : Int) > expire))
    (hnocrop : ¬ (req.nocrop ≠ "" ∧ cfg.useSignatures = false))
    (hbg : req.bg = "")
    (hmiss : mapLookup m req.url = none)
    (herr : fetchAndCropImage cfg.imageConf (urlHostname req.url) outcome
      false false = .error err) :
    ((err = .croppingError ∨ err = .decapInternalError) →
      ∃ stored,
        (screenshotHandler cfg now outcome fallback m req).cache =
          mapInsert m req.url stored ∧
        stored.IsFailedImage = true ∧
        mapLookup (screenshotHandler cfg now outcome fallback m req).cache
          req.url = some stored ∧
        (screenshotHandler cfg now outcome fallback m req).response =
          .okImage fallback ∧
        (screenshotHandler cfg now outcome fallback m req).spawned =
          [{ stored with Image := some fallback }]) ∧
    (¬ (err = .croppingError ∨ err = .decapInternalError) →
      screenshotHandler cfg now outcome fallback m req =
        ⟨.internalError, m, []⟩) := by
  have hw : (writeMetadataStep now m
      ({ CacheEntry.zero with
          Expire := expire
          LastFetched := now
          Provenance := newProvenance req now
          Signature := req.s
          URL := some req.url } : CacheEntry)).1 =
      mapInsert m req.url
        { CacheEntry.zero with
          Expire := expire
          LastFetched := now
          Provenance := newProvenance req now
          Signature := req.s
          URL := some req.url
          EntryCreated := now } := by
    unfold writeMetadataStep writeStep
    simp only [keyStr]
    rw [hmiss]
    rfl
  have hfail : ({ CacheEntry.zero with
      Expire := expire
      LastFetched := now
      Provenance := newProvenance req now
      Signature := req.s
      URL := some req.url
      EntryCreated := now } : CacheEntry).IsFailedImage = true := by
    simp [CacheEntry.IsFailedImage, CacheEntry.zero]
  constructor
  · intro hcrop
    unfold screenshotHandler
    rw [if_neg hurl, if_neg hs, hparse]
    dsimp only
    rw [if_neg hsig, if_neg hexp, if_neg hnocrop]
    rw [readStep_miss fallback m req.url hmiss]
    dsimp only
    rw [if_neg (by simp [hbg]), if_pos (show CacheEntry.zero.IsEmpty = true from rfl)]
    rw [herr]
    dsimp only
    rw [if_pos hcrop]
    rw [hw]
    rw [readStep_hit fallback _ req.url _ (mapLookup_insert ..)]
    rw [if_pos hfail]
    refine ⟨_, rfl, hfail, ?_, rfl, rfl⟩
    exact mapLookup_insert ..
  · intro hother
    unfold screenshotHandler
    rw [if_neg hurl, if_neg hs, hparse]
    dsimp only
    rw [if_neg hsig, if_neg hexp, if_neg hnocrop]
    rw [readStep_miss fallback m req.url hmiss]
    dsimp only
    rw [if_neg (by simp [hbg]), if_pos (show CacheEntry.zero.IsEmpty = true from rfl)]
    rw [herr]
    dsimp only
    rw [if_neg hother]

/-- Witness for C7: a renderer 500 is cached as a failed entry and served
the fallback; an unreachable renderer yields a plain 500 with the cache
untouched. -/
theorem fg_miss_error_classification_witness :
    let cfg : Config := ⟨false, "", "", "", "", false, 10, []⟩
    let req : Request := ⟨"u", "", "200", "", "", "", "", "", ""⟩
    (∃ stored,
      (screenshotHandler cfg 100 (.response 500 true none) [7] [] req).cache =
        mapInsert [] req.url stored ∧
      stored.IsFailedImage = true ∧
      mapLookup (screenshotHandler cfg 100 (.response 500 true none) [7] [] req).cache
        req.url = some stored ∧
      (screenshotHandler cfg 100 (.response 500 true none) [7] [] req).response =
        .okImage [7] ∧
      (screenshotHandler cfg 100 (.response 500 true none) [7] [] req).spawned =
        [{ stored with Image := some [7] }]) ∧
    screenshotHandler cfg 100 .noConnection [7] [] req =
      ⟨.internalError, [], []⟩ := by
  intro cfg req
  constructor
  · exact (fg_miss_error_classification cfg 100 (.response 500 true none) [7] []
      req 200 .decapInternalError (by decide) (by decide) (by decide) (by decide)
      (by decide) (by decide) rfl rfl rfl).1 (Or.inr rfl)
  · exact (fg_miss_error_classification cfg 100 .noConnection [7] [] req 200
      .connectFailure (by decide) (by decide) (by decide) (by decide) (by decide)
      (by decide) rfl rfl rfl).2 (by decide)

/-- C8: the signature check accepts exactly the lowercase-hex HMAC-SHA1 of
`uniqueName + ":" + url + expire + secret` under the signing key; and the
handler feeds it the raw expire query string (not the parsed integer), so —
given the earlier validation steps pass — it replies 400 "Signature check
failed" precisely when the check over that raw string fails. -/
theorem checkSignature_spec (cfg : Config) :
    (∀ url signature expire,
      checkSignature cfg url signature expire = true ↔
        signature = hexEncode (hmacSha1 (strBytes cfg.signingKey)
          (strBytes (cfg.signingUniqueName ++ ":" ++ url ++ expire ++
            cfg.signingSecret)))) ∧
    (∀ (now : Nat) (outcome : DecapOutcome) (fallback : List Nat)
        (m : CacheMap) (req : Request) (expire : Int),
      cfg.useSignatures = true → req.url ≠ "" → req.s ≠ "" →
      (if req.expireRaw ≠ "" then parseInt64 req.expireRaw else some 0) =
        some expire →
      ((screenshotHandler cfg now outcome fallback m req).response =
          .badRequest "Signature check failed" ↔
        checkSignature cfg req.url req.s req.expireRaw = false)) := by
  constructor
  · intro url signature expire
    unfold checkSignature
    exact beq_iff_eq
  · intro now outcome fallback m req expire hsigOn hurl hs hparse
    by_cases hchk : checkSignature cfg req.url req.s req.expireRaw = false
    · have hh : screenshotHandler cfg now outcome fallback m req =
          ⟨.badRequest "Signature check failed", m, []⟩ := by
        unfold screenshotHandler
        rw [if_neg hurl, if_neg (fun hand => hs hand.2), hparse]
        dsimp only
        rw [if_pos ⟨hsigOn, hchk⟩]
      rw [hh]
      exact ⟨fun _ => hchk, fun _ => rfl⟩
    · refine iff_of_false ?_ hchk
      unfold screenshotHandler
      rw [if_neg hurl, if_neg (fun hand => hs hand.2), hparse]
      dsimp only
      rw [if_neg (fun hand => hchk hand.2)]
      intro habs
      by_cases h1 : expire = 0 ∨ (now : Int) > expire
      · rw [if_pos h1] at habs
        simp at habs
      · rw [if_neg h1] at habs
        by_cases h2 : req.nocrop ≠ "" ∧ cfg.useSignatures = false
        · rw [if_pos h2] at habs
          cases hf : fetchAndCropImage cfg.imageConf (urlHostname req.url)
              outcome false true with
          | error e => rw [hf] at habs ; simp at habs
          | ok img => rw [hf] at habs ; simp at habs
        · rw [if_neg h2] at habs
          by_cases h3 : req.bg ≠ ""
          · rw [if_pos h3] at habs
            by_cases h4 : cfg.ignoreBackgroundRequests = true
            · rw [if_pos h4] at habs ; simp at habs
            · rw [if_neg h4] at habs
              by_cases h5 : (readStep fallback m req.url).1.IsEmpty = true
              · rw [if_pos h5] at habs ; simp at habs
              · rw [if_neg h5] at habs
                by_cases h6 : ¬ (req.token ≠ "" ∧ req.token = cfg.adminToken) ∧
                    (now : Int) -
                      ((readStep fallback m req.url).1.LastRefreshAttempt : Int) <
                      cfg.bgRateLimitTime
                · rw [if_pos h6] at habs ; simp at habs
                · rw [if_neg h6] at habs ; simp at habs
          · rw [if_neg h3] at habs
            by_cases h5 : (readStep fallback m req.url).1.IsEmpty = true
            · rw [if_pos h5] at habs
              cases hf : fetchAndCropImage cfg.imageConf (urlHostname req.url)
                  outcome false false with
              | error e =>
                rw [hf] at habs
                dsimp only at habs
                by_cases h7 : e = .croppingError ∨ e = .decapInternalError
                · rw [if_pos h7] at habs ; simp at habs
                · rw [if_neg h7] at habs ; simp at habs
              | ok img => rw [hf] at habs ; simp at habs
            · rw [if_neg h5] at habs
              by_cases h8 : strContains req.referer infoPath = false
              · rw [if_pos h8] at habs ; simp at habs
              · rw [if_neg h8] at habs ; simp at habs

/-- Witness for C8 at a concrete configuration, request and forged
signature. -/
theorem checkSignature_spec_witness :
    let cfg : Config := ⟨true, "key", "sec", "jix", "", false, 10, []⟩
    let req : Request := ⟨"u", "forged", "007", "", "", "", "", "", ""⟩
    (checkSignature cfg "u" "forged" "007" = true ↔
      "forged" = hexEncode (hmacSha1 (strBytes "key")
        (strBytes ("jix" ++ ":" ++ "u" ++ "007" ++ "sec")))) ∧
    ((screenshotHandler cfg 3 .noConnection [] [] req).response =
        .badRequest "Signature check failed" ↔
      checkSignature cfg "u" "forged" "007" = false) := by
  intro cfg req
  exact ⟨(checkSignature_spec cfg).1 "u" "forged" "007",
    (checkSignature_spec cfg).2 3 .noConnection [] [] req 7 rfl (by decide)
      (by decide) (by decide)⟩
